import Mathlib

/-!
Verification of the inscription-minting core of `src/subcommand/wallet/inscribe.rs`
(the `Inscribe` subcommand: `create_inscription_transactions`, `backup_recovery_key`
and the broadcast phase of `Inscribe::run`).

The embedding follows the Rust source line by line.  Machine integers (`u32`,
`u64`, `usize`) are modelled as `Nat`; the only arithmetic the source performs on
them is comparison, checked subtraction and ceiling division, none of which can
overflow on the values involved, so no explicit modular reduction is needed.
Fallible Rust code (`Result`, `?`, `bail!`, and the `expect`/`assert_eq!` panics)
is modelled with `Except Err`, where `Err` distinguishes user-facing `anyhow!`
errors from implementation panics.

External-library primitives of `rust-bitcoin`/`secp256k1` whose behaviour the
core relies on only through their documented contracts (x-only key serialization
is 32 bytes, Schnorr signatures are 64 bytes, the BIP-341 tap-tweak of a key
pair commutes with taking its x-only public key, Taproot finalization returns
the tweak of the internal key under the Merkle root) are collected in a `Secp`
structure whose propositional fields state exactly those contracts.  Transaction
virtual size is modelled concretely from the BIP-141 serialization rules, as
implemented by `rust-bitcoin`'s `Transaction::vsize`.
-/

set_option autoImplicit false

/-- `bitcoin::OutPoint`: `(txid, vout)`.  The 32-byte txid is abstracted to a
`Nat` handle; only equality and ordering of txids are ever used. -/
structure OutPoint where
  txid : Nat
  vout : Nat
deriving DecidableEq, Repr

/-- `SatPoint`: `(outpoint, offset)` locating one sat inside an output. -/
structure SatPoint where
  outpoint : OutPoint
  offset : Nat
deriving DecidableEq, Repr

/-- Strict lexicographic order on outpoints, the `Ord` used by the
`BTreeMap<OutPoint, Amount>` holding the wallet UTXOs. -/
def OutPoint.lt (a b : OutPoint) : Bool :=
  a.txid < b.txid || (a.txid = b.txid && a.vout < b.vout)

/-- The keys of a `BTreeMap<OutPoint, _>` are iterated in strictly ascending
order; this predicate states that a key list is in that order. -/
def strictlyAscending : List OutPoint → Bool
  | [] => true
  | [_] => true
  | a :: b :: rest => OutPoint.lt a b && strictlyAscending (b :: rest)

/-- `bitcoin::TxIn`.  `witness` is the stack of raw byte strings. -/
structure TxIn where
  previousOutput : OutPoint
  scriptSig : List Nat
  sequence : Nat
  witness : List (List Nat)
deriving DecidableEq, Repr

/-- `bitcoin::TxOut`. -/
structure TxOut where
  value : Nat
  script_pubkey : List Nat
deriving DecidableEq, Repr

/-- `bitcoin::Transaction`. -/
structure Transaction where
  version : Nat
  input : List TxIn
  output : List TxOut
  lockTime : Nat
deriving DecidableEq, Repr

/-- Length of the Bitcoin variable-length integer encoding of `n`. -/
def varintLen (n : Nat) : Nat :=
  if n < 0xFD then 1 else if n < 0x10000 then 3 else if n < 0x100000000 then 5 else 9

/-- Serialized size of a length-prefixed byte string (script or witness item). -/
def scriptLen (s : List Nat) : Nat := varintLen s.length + s.length

/-- Serialized size of a `TxIn` without its witness: 36-byte outpoint,
length-prefixed script_sig, 4-byte sequence. -/
def txinBaseSize (i : TxIn) : Nat := 36 + scriptLen i.scriptSig + 4

/-- Serialized size of a `TxOut`: 8-byte value, length-prefixed script_pubkey. -/
def txoutSize (o : TxOut) : Nat := 8 + scriptLen o.script_pubkey

/-- Serialized size of one input's witness: item count plus length-prefixed
items. -/
def witnessSize (w : List (List Nat)) : Nat :=
  varintLen w.length + (w.map (fun e => varintLen e.length + e.length)).sum

/-- Base (non-witness) serialized transaction size. -/
def baseSize (tx : Transaction) : Nat :=
  4 + varintLen tx.input.length + (tx.input.map txinBaseSize).sum
    + varintLen tx.output.length + (tx.output.map txoutSize).sum + 4

/-- A transaction serializes in segwit format iff some input has a non-empty
witness (`rust-bitcoin`'s rule). -/
def hasWitness (tx : Transaction) : Bool :=
  tx.input.any (fun i => !i.witness.isEmpty)

/-- Total serialized size: base size, plus segwit marker and flag and the
per-input witnesses when any witness is present. -/
def totalSize (tx : Transaction) : Nat :=
  baseSize tx + (if hasWitness tx then 2 + (tx.input.map (fun i => witnessSize i.witness)).sum else 0)

/-- BIP-141 transaction weight: `3 × base + total`. -/
def weight (tx : Transaction) : Nat := 3 * baseSize tx + totalSize tx

/-- `Transaction::vsize()`: virtual size, the weight divided by 4 rounding up. -/
def vsize (tx : Transaction) : Nat := (weight tx + 3) / 4

/-- Modelled from the spec: `FeeRate` (`src/fee_rate.rs`, not under `src/`) is a
non-negative sats-per-virtual-byte rate; `fee(vsize)` multiplies and rounds up.
Represented as the rational `num / den`. -/
structure FeeRate where
  num : Nat
  den : Nat
deriving DecidableEq, Repr

/-- Modelled from the spec: `fee_rate.fee(vsize)` with ceiling rounding. -/
def FeeRate.fee (fr : FeeRate) (v : Nat) : Nat :=
  (fr.num * v + (fr.den - 1)) / fr.den

/-- A Bitcoin address, reduced to the data the core consumes: the network tag
and the script_pubkey it denotes.  `Address` equality in the source compares
payload and network, which for the P2TR addresses compared here is exactly
equality of this record. -/
structure Address where
  network : Nat
  script_pubkey : List Nat
deriving DecidableEq, Repr

/-- `Address::p2tr_tweaked(output_key, network)`: a P2TR script_pubkey is
`OP_PUSHNUM_1 OP_PUSHBYTES_32 <output key>`. -/
def p2trTweaked (outputKey : List Nat) (network : Nat) : Address :=
  { network := network, script_pubkey := 0x51 :: 0x20 :: outputKey }

/-- `u64::checked_sub`. -/
def checkedSub (a b : Nat) : Option Nat := if b ≤ a then some (a - b) else none

/-- Rendering of an `OutPoint` by `Display` ("txid:vout", with the txid handle
in place of the hex digest). -/
def outPointStr (o : OutPoint) : String := toString o.txid ++ ":" ++ toString o.vout

/-- Rendering of a `SatPoint` by `Display` ("txid:vout:offset"). -/
def satPointStr (s : SatPoint) : String := outPointStr s.outpoint ++ ":" ++ toString s.offset

/-- The failure modes of the inscribe core.  `user` wraps errors propagated
from collaborators; the remaining constructors are the `anyhow!`/`bail!` errors
and the two `expect`/`assert_eq!` panics raised by `inscribe.rs` itself. -/
inductive Err where
  | user (msg : String)
  | satAlreadyInscribed (s : SatPoint)
  | outpointAlreadyInscribed (o : OutPoint) (id : Nat) (s : SatPoint)
  | noCardinalUtxos
  | insufficientCommitValue
  | revealWouldBeDust
  | noCommitOutput
  | recoveryKeyMismatch
  | recoveryKeyImportFailed
deriving DecidableEq, Repr

/-- The message carried by each error, as formatted by the source. -/
def Err.message : Err → String
  | .user msg => msg
  | .satAlreadyInscribed s => "sat at " ++ satPointStr s ++ " already inscribed"
  | .outpointAlreadyInscribed o id s =>
      "utxo " ++ outPointStr o ++ " already inscribed with inscription "
        ++ toString id ++ " on sat " ++ satPointStr s
  | .noCardinalUtxos => "wallet contains no cardinal utxos"
  | .insufficientCommitValue =>
      "commit transaction output value insufficient to pay transaction fee"
  | .revealWouldBeDust => "commit transaction output would be dust"
  | .noCommitOutput => "should find sat commit/inscription output"
  | .recoveryKeyMismatch => "assertion failed"
  | .recoveryKeyImportFailed => "commit tx recovery key import failed"

/-- `true` exactly on the errors raised by `expect`/`assert_eq!`, which in the
source are panics (programming errors), not user-facing `anyhow!` errors. -/
def Err.isImplementationBug : Err → Bool
  | .noCommitOutput => true
  | .recoveryKeyMismatch => true
  | _ => false

/-- `TaprootSpendInfo` for the single-leaf tree built by the core: the Taproot
output key, the Merkle root passed to the key-path tweak, and the serialized
BIP-341 control block for the one leaf. -/
structure TaprootSpendInfo where
  outputKey : List Nat
  merkleRoot : Option (List Nat)
  controlBlockBytes : List Nat
deriving DecidableEq, Repr

/-- The `rust-bitcoin` / `secp256k1` primitives the core calls, together with
the documented library contracts it relies on:

* `xOnly` — `XOnlyPublicKey::from_keypair` followed by `serialize()` (32 bytes);
* `tweakPub` — the BIP-341 taproot output key of an internal key under an
  optional Merkle root;
* `tweakKeyPair` — `UntweakedKeyPair::tap_tweak`;
* `taprootFinalize` — `TaprootBuilder::new().add_leaf(0, script).finalize`
  plus `control_block`, whose output key is the tweak of the internal key
  under the resulting Merkle root;
* `leafHash` — `TapLeafHash::from_script`;
* `sighash` — `taproot_script_spend_signature_hash (tx, input index, prevouts,
  leaf hash, sighash type)`;
* `sign` — `sign_schnorr` (64-byte signatures);
* `dustValue` — `Script::dust_value`;
* `txid` — `Transaction::txid`. -/
structure Secp where
  xOnly : Nat → List Nat
  tweakPub : List Nat → Option (List Nat) → List Nat
  tweakKeyPair : Nat → Option (List Nat) → Nat
  taprootFinalize : List Nat → List Nat → TaprootSpendInfo
  leafHash : List Nat → Nat → List Nat
  sighash : Transaction → Nat → List TxOut → List Nat → Nat → List Nat
  sign : List Nat → Nat → List Nat
  dustValue : List Nat → Nat
  txid : Transaction → Nat
  xOnly_len : ∀ k, (xOnly k).length = 32
  tweak_compat : ∀ k mr, xOnly (tweakKeyPair k mr) = tweakPub (xOnly k) mr
  finalize_output :
    ∀ ik s, (taprootFinalize ik s).outputKey = tweakPub ik (taprootFinalize ik s).merkleRoot
  sign_len : ∀ m k, (sign m k).length = 64

/-- `OP_CHECKSIG`. -/
def OP_CHECKSIG : Nat := 0xAC

/-- `LeafVersion::TapScript`. -/
def TAPSCRIPT_LEAF_VERSION : Nat := 0xC0

/-- `SchnorrSighashType::Default`. -/
def SIGHASH_DEFAULT : Nat := 0

/-- `Sequence::ENABLE_RBF_NO_LOCKTIME`. -/
def ENABLE_RBF_NO_LOCKTIME : Nat := 0xFFFFFFFD

/-- `script::Builder::push_slice`: minimal-push encoding of a data push. -/
def pushSlice (data : List Nat) : List Nat :=
  if data.length < 76 then data.length :: data
  else if data.length < 0x100 then 76 :: data.length :: data
  else if data.length < 0x10000 then 77 :: data.length % 256 :: data.length / 256 :: data
  else 78 :: data.length % 256 :: data.length / 256 % 256
    :: data.length / 65536 % 256 :: data.length / 16777216 :: data

/-- Lines 109–125: satpoint resolution.  An explicit satpoint is used
unchanged; otherwise the first UTXO (in `BTreeMap` iteration order) whose
outpoint is not the outpoint of any inscription-index key is selected at
offset 0, and if there is none the run fails with `anyhow!("wallet contains
no cardinal utxos")`.  `inscriptions` and `utxos` are the index and UTXO
`BTreeMap`s as their sorted association lists. -/
def resolveSatpoint (satpointArg : Option SatPoint) (inscriptions : List (SatPoint × Nat))
    (utxos : List (OutPoint × Nat)) : Except Err SatPoint :=
  match satpointArg with
  | some satpoint => .ok satpoint
  | none =>
    let inscribedUtxos := inscriptions.map (fun p => p.1.outpoint)
    match utxos.find? (fun u => !(decide (u.1 ∈ inscribedUtxos))) with
    | some u => .ok { outpoint := u.1, offset := 0 }
    | none => .error Err.noCardinalUtxos

/-- Lines 127–138: the collision check.  Every index entry is visited in
iteration order; an entry equal to the resolved satpoint raises the
"sat … already inscribed" error, an entry sharing only its outpoint raises the
"utxo … already inscribed" error. -/
def collisionCheck (satpoint : SatPoint) : List (SatPoint × Nat) → Except Err Unit
  | [] => .ok ()
  | (inscribed_satpoint, inscription_id) :: rest =>
    if inscribed_satpoint = satpoint then
      .error (Err.satAlreadyInscribed satpoint)
    else if inscribed_satpoint.outpoint = satpoint.outpoint then
      .error (Err.outpointAlreadyInscribed satpoint.outpoint inscription_id inscribed_satpoint)
    else collisionCheck satpoint rest

/-- Lines 144–148: the reveal script — push the 32-byte x-only public key,
append `OP_CHECKSIG`, then the inscription envelope (`append_reveal_script`,
modelled as the byte string the external encoder appends). -/
def reveal_script_of (secp : Secp) (key_pair : Nat) (inscription : List Nat) : List Nat :=
  pushSlice (secp.xOnly key_pair) ++ [OP_CHECKSIG] ++ inscription

/-- Lines 150–158: the single-leaf Taproot tree finalized against the
ephemeral internal key, with its control block. -/
def taproot_info (secp : Secp) (key_pair : Nat) (inscription : List Nat) : TaprootSpendInfo :=
  secp.taprootFinalize (secp.xOnly key_pair) (reveal_script_of secp key_pair inscription)

/-- Line 160: `Address::p2tr_tweaked(taproot_spend_info.output_key(), network)`. -/
def commit_tx_address_of (secp : Secp) (key_pair : Nat) (inscription : List Nat)
    (network : Nat) : Address :=
  p2trTweaked (taproot_info secp key_pair inscription).outputKey network

/-- Lines 171–176: locate the commit output paying the commit address.
`Iterator::find` takes the first matching output; its absence is an `expect`
panic. -/
def findCommitOutputAux (spk : List Nat) : Nat → List TxOut → Option (Nat × TxOut)
  | _, [] => none
  | i, o :: rest =>
    if o.script_pubkey = spk then some (i, o) else findCommitOutputAux spk (i + 1) rest

/-- Lines 171–176, continued: `enumerate().find()` keeps the first matching
output together with its index. -/
def findCommitOutput (tx : Transaction) (spk : List Nat) : Except Err (Nat × TxOut) :=
  match findCommitOutputAux spk 0 tx.output with
  | some (vout, o) => .ok (vout, o)
  | none => .error Err.noCommitOutput

/-- Lines 178–194: the reveal transaction template — one input spending the
located commit output with RBF sequence and empty script_sig and witness, one
output paying the destination the full commit output value, version 1,
lock_time 0. -/
def reveal_template (commitTxid vout value : Nat) (destSpk : List Nat) : Transaction :=
  { version := 1
    input := [{ previousOutput := { txid := commitTxid, vout := vout }
                scriptSig := []
                sequence := ENABLE_RBF_NO_LOCKTIME
                witness := [] }]
    output := [{ value := value, script_pubkey := destSpk }]
    lockTime := 0 }

/-- Replace the witness of input 0 (`reveal_tx.input[0].witness` pushes /
`witness_mut(0)`). -/
def setWitness0 (tx : Transaction) (w : List (List Nat)) : Transaction :=
  { tx with input := match tx.input with
      | [] => []
      | i :: rest => { i with witness := w } :: rest }

/-- Clearing input 0's witness; used to express the transaction the sighash
was computed over in terms of the returned reveal transaction. -/
def clearWitness0 (tx : Transaction) : Transaction := setWitness0 tx []

/-- Lines 210–217: apply the reveal fee to the output value with
`checked_sub`, then compare against the destination script's dust value. -/
def applyRevealFee (value fee dust : Nat) : Except Err Nat :=
  match checkedSub value fee with
  | none => .error Err.insufficientCommitValue
  | some v => if v < dust then .error Err.revealWouldBeDust else .ok v

/-- The dummy-witnessed clone used to measure the reveal vsize (lines 196–208):
a 64-byte zero Schnorr signature, the reveal script and the serialized control
block are pushed onto a clone of the template. -/
def dummy_reveal (secp : Secp) (key_pair : Nat) (inscription : List Nat)
    (commitTxid vout value : Nat) (destSpk : List Nat) : Transaction :=
  setWitness0 (reveal_template commitTxid vout value destSpk)
    [List.replicate 64 0, reveal_script_of secp key_pair inscription,
      (taproot_info secp key_pair inscription).controlBlockBytes]

/-- Lines 162–254 of `create_inscription_transactions`, after satpoint
resolution and the collision check: key and script construction, commit
funding, reveal template, fee measurement on the dummy witness, fee
application, signing, and the recovery-key tweak with its defensive
assertion. -/
def buildTransactions (secp : Secp) (key_pair : Nat)
    (builder : SatPoint → List (SatPoint × Nat) → List (OutPoint × Nat) → Address →
      List Address → FeeRate → Except String Transaction)
    (satpoint : SatPoint) (inscription : List Nat) (inscriptions : List (SatPoint × Nat))
    (network : Nat) (utxos : List (OutPoint × Nat)) (change : List Address)
    (destination : Address) (fee_rate : FeeRate) :
    Except Err (Transaction × Transaction × Nat) :=
  match builder satpoint inscriptions utxos
      (commit_tx_address_of secp key_pair inscription network) change fee_rate with
  | .error msg => .error (Err.user msg)
  | .ok unsigned_commit_tx =>
    match findCommitOutput unsigned_commit_tx
        (commit_tx_address_of secp key_pair inscription network).script_pubkey with
    | .error e => .error e
    | .ok (vout, output) =>
      match applyRevealFee output.value
          (fee_rate.fee (vsize (dummy_reveal secp key_pair inscription
            (secp.txid unsigned_commit_tx) vout output.value destination.script_pubkey)))
          (secp.dustValue destination.script_pubkey) with
      | .error e => .error e
      | .ok newValue =>
        if p2trTweaked
            (secp.xOnly (secp.tweakKeyPair key_pair
              (taproot_info secp key_pair inscription).merkleRoot)) network
            = commit_tx_address_of secp key_pair inscription network then
          .ok (unsigned_commit_tx,
            setWitness0
              (reveal_template (secp.txid unsigned_commit_tx) vout newValue
                destination.script_pubkey)
              [secp.sign (secp.sighash
                  (reveal_template (secp.txid unsigned_commit_tx) vout newValue
                    destination.script_pubkey) 0 [output]
                  (secp.leafHash (reveal_script_of secp key_pair inscription)
                    TAPSCRIPT_LEAF_VERSION) SIGHASH_DEFAULT) key_pair,
               reveal_script_of secp key_pair inscription,
               (taproot_info secp key_pair inscription).controlBlockBytes],
            secp.tweakKeyPair key_pair (taproot_info secp key_pair inscription).merkleRoot)
        else .error Err.recoveryKeyMismatch

/-- `Inscribe::create_inscription_transactions` (lines 99–255).  The ephemeral
key pair (sampled from the thread RNG at line 141) and the external
collaborators — the `secp256k1`/`rust-bitcoin` primitives and the
`TransactionBuilder` — are passed explicitly. -/
def create_inscription_transactions (secp : Secp) (key_pair : Nat)
    (builder : SatPoint → List (SatPoint × Nat) → List (OutPoint × Nat) → Address →
      List Address → FeeRate → Except String Transaction)
    (satpointArg : Option SatPoint) (inscription : List Nat)
    (inscriptions : List (SatPoint × Nat)) (network : Nat)
    (utxos : List (OutPoint × Nat)) (change : List Address)
    (destination : Address) (fee_rate : FeeRate) :
    Except Err (Transaction × Transaction × Nat) :=
  match resolveSatpoint satpointArg inscriptions utxos with
  | .error e => .error e
  | .ok satpoint =>
    match collisionCheck satpoint inscriptions with
    | .error e => .error e
    | .ok _ =>
      buildTransactions secp key_pair builder satpoint inscription inscriptions network
        utxos change destination fee_rate

/-- The RPC calls `Inscribe::run` / `backup_recovery_key` make, in order. -/
inductive RpcEvent where
  | getDescriptorInfo
  | importDescriptors
  | signCommitTx
  | broadcastCommitTx
  | broadcastRevealTx
deriving DecidableEq, Repr

/-- The responses of the node RPC client consumed by the broadcast phase of
`Inscribe::run`: whether each call succeeds at the transport level, the
`success` flags inside the `import_descriptors` response, and the txids the
two `send_raw_transaction` calls return. -/
structure RpcClient where
  infoOk : Bool
  importCallOk : Bool
  importResults : List Bool
  signOk : Bool
  sendCommitOk : Bool
  commitTxid : Nat
  sendRevealOk : Bool
  revealTxid : Nat
deriving DecidableEq, Repr

/-- The result loop of `backup_recovery_key` (lines 276–280): the first
`success: false` entry of the `import_descriptors` response aborts with
`anyhow!("commit tx recovery key import failed")`. -/
def importResultsCheck : List Bool → Except Err Unit
  | [] => .ok ()
  | r :: rest =>
    if r then importResultsCheck rest else .error Err.recoveryKeyImportFailed

/-- `Inscribe::backup_recovery_key` (lines 257–283): query the descriptor
checksum, import the `rawtr` descriptor, then check every result.  Returns
the RPC calls made alongside the outcome. -/
def backup_recovery_key (client : RpcClient) : List RpcEvent × Except Err Unit :=
  if !client.infoOk then
    ([RpcEvent.getDescriptorInfo], .error (Err.user "get_descriptor_info failed"))
  else if !client.importCallOk then
    ([RpcEvent.getDescriptorInfo, RpcEvent.importDescriptors],
      .error (Err.user "import_descriptors failed"))
  else
    ([RpcEvent.getDescriptorInfo, RpcEvent.importDescriptors],
      importResultsCheck client.importResults)

/-- Lines 71–96 of `Inscribe::run`, from the return of
`create_inscription_transactions` on: back up the recovery key unless
`no_backup`, sign the commit transaction with the wallet, broadcast the
commit, broadcast the reveal.  Returns the RPC calls made, in order,
alongside the outcome. -/
def runBroadcastPhase (no_backup : Bool) (client : RpcClient) :
    List RpcEvent × Except Err (Nat × Nat) :=
  let backup := if no_backup then ([], Except.ok ()) else backup_recovery_key client
  match backup with
  | (events, .error e) => (events, .error e)
  | (events, .ok _) =>
    let events := events ++ [RpcEvent.signCommitTx]
    if !client.signOk then (events, .error (Err.user "sign_raw_transaction failed"))
    else
      let events := events ++ [RpcEvent.broadcastCommitTx]
      if !client.sendCommitOk then
        (events, .error (Err.user "Failed to send commit transaction"))
      else
        let events := events ++ [RpcEvent.broadcastRevealTx]
        if !client.sendRevealOk then
          (events, .error (Err.user "Failed to send reveal transaction"))
        else (events, .ok (client.commitTxid, client.revealTxid))

/-- A concrete model of the library primitives satisfying the `Secp`
contracts, used to evaluate the pipeline on closed inputs. -/
def testSecp : Secp where
  xOnly := fun k => List.replicate 32 (k % 256)
  tweakPub := fun p _ => p.map (fun b => (b + 1) % 256)
  tweakKeyPair := fun k _ => k + 1
  taprootFinalize := fun ik s =>
    { outputKey := ik.map (fun b => (b + 1) % 256)
      merkleRoot := some (TAPSCRIPT_LEAF_VERSION :: s)
      controlBlockBytes := TAPSCRIPT_LEAF_VERSION :: ik }
  leafHash := fun s v => v :: s
  sighash := fun _ _ _ _ _ => List.replicate 32 0
  sign := fun m k => List.replicate 64 ((m.headD 0 + k) % 256)
  dustValue := fun _ => 330
  txid := fun tx => tx.output.length + 7
  xOnly_len := fun k => by simp
  tweak_compat := fun k mr => by simp [Nat.add_mod]
  finalize_output := fun ik s => rfl
  sign_len := fun m k => by simp

/-- A concrete reveal destination. -/
def testDest : Address := { network := 0, script_pubkey := [9, 9, 9, 9] }

/-- A concrete change address. -/
def testChange : Address := { network := 0, script_pubkey := [8, 8] }

/-- Concrete wallet UTXOs, in `BTreeMap` order. -/
def testUtxos : List (OutPoint × Nat) :=
  [({ txid := 1, vout := 0 }, 10000), ({ txid := 2, vout := 0 }, 10000)]

/-- A concrete inscription index holding one inscription on the first UTXO. -/
def testIns : List (SatPoint × Nat) :=
  [({ outpoint := { txid := 1, vout := 0 }, offset := 0 }, 1)]

/-- A concrete funded commit transaction as the external `TransactionBuilder`
would produce it: one output paying the requested commit address, one change
output, an RBF input. -/
def testBuilder (_sp : SatPoint) (_ins : List (SatPoint × Nat)) (_ux : List (OutPoint × Nat))
    (addr : Address) (_ch : List Address) (_fr : FeeRate) : Except String Transaction :=
  .ok
    { version := 2
      input := [{ previousOutput := { txid := 2, vout := 0 }
                  scriptSig := []
                  sequence := ENABLE_RBF_NO_LOCKTIME
                  witness := [] }]
      output := [{ value := 9000, script_pubkey := addr.script_pubkey },
                 { value := 500, script_pubkey := [8, 8] }]
      lockTime := 0 }

/-- A closed, successful run of the pipeline: no explicit satpoint, the first
UTXO already inscribed, so the second is auto-selected. -/
def testResult : Except Err (Transaction × Transaction × Nat) :=
  create_inscription_transactions testSecp 1 testBuilder none [] testIns 0 testUtxos
    [testChange, testChange] testDest { num := 1, den := 1 }

/-- The commit transaction of the closed successful run. -/
def testCommit : Transaction :=
  match testResult with
  | .ok (c, _, _) => c
  | .error _ => { version := 0, input := [], output := [], lockTime := 0 }

/-- The reveal transaction of the closed successful run. -/
def testReveal : Transaction :=
  match testResult with
  | .ok (_, r, _) => r
  | .error _ => { version := 0, input := [], output := [], lockTime := 0 }

/-- The recovery key pair of the closed successful run. -/
def testRecovery : Nat :=
  match testResult with
  | .ok (_, _, rk) => rk
  | .error _ => 0

/-- Modelled from the spec: the external `TransactionBuilder`
(`src/subcommand/wallet/transaction_builder.rs`, not under `src/`) emits only
transactions that opt into RBF — "Every transaction emitted opts into
Replace-By-Fee (input sequence < 0xFFFFFFFE)". -/
def BuilderEmitsRbf
    (builder : SatPoint → List (SatPoint × Nat) → List (OutPoint × Nat) → Address →
      List Address → FeeRate → Except String Transaction) : Prop :=
  ∀ sp ins utxos addr ch fr tx, builder sp ins utxos addr ch fr = .ok tx →
    tx.input.any (fun i => decide (i.sequence < 0xFFFFFFFE)) = true

/-- Classifier: is the outcome the `assert_eq!` failure comparing the tweaked
recovery key with the commit address? -/
def isErrRecoveryMismatch : Except Err (Transaction × Transaction × Nat) → Bool
  | .error Err.recoveryKeyMismatch => true
  | _ => false

/-- Classifier: is the outcome one of the two collision-check errors? -/
def isCollisionErr : Except Err (Transaction × Transaction × Nat) → Bool
  | .error (Err.satAlreadyInscribed _) => true
  | .error (Err.outpointAlreadyInscribed _ _ _) => true
  | _ => false

/-- Index of the first occurrence of an RPC event in a trace. -/
def firstIdx (e : RpcEvent) (l : List RpcEvent) : Nat :=
  l.findIdx (fun x => decide (x = e))

/-- The `import_descriptors` call strictly precedes the given event whenever
that event occurs in the trace. -/
abbrev importPrecedes (ev : RpcEvent) (l : List RpcEvent) : Prop :=
  ev ∈ l → RpcEvent.importDescriptors ∈ l ∧
    firstIdx RpcEvent.importDescriptors l < firstIdx ev l

/-- Recovery export happens before the commit is signed and before either
broadcast. -/
abbrev recoveryExportFirst (l : List RpcEvent) : Prop :=
  importPrecedes RpcEvent.signCommitTx l ∧
    importPrecedes RpcEvent.broadcastCommitTx l ∧
    importPrecedes RpcEvent.broadcastRevealTx l

/-- A funded commit transaction in which two outputs pay the same
script_pubkey `[1, 2]`. -/
def twoMatchTx : Transaction :=
  { version := 1
    input := []
    output := [{ value := 1000, script_pubkey := [1, 2] },
               { value := 2000, script_pubkey := [1, 2] }]
    lockTime := 0 }

/-- A concrete RPC client whose `import_descriptors` response carries a
failed result. -/
def testClient : RpcClient :=
  { infoOk := true, importCallOk := true, importResults := [false]
    signOk := true, sendCommitOk := true, commitTxid := 5
    sendRevealOk := true, revealTxid := 6 }

/-- Decidable equality of outcomes, for evaluating the pipeline on closed
inputs. -/
instance {ε α : Type} [DecidableEq ε] [DecidableEq α] : DecidableEq (Except ε α) := fun
  | .error a, .error b =>
    if h : a = b then .isTrue (by rw [h])
    else .isFalse (fun hc => h (Except.error.inj hc))
  | .error a, .ok b => .isFalse (fun hc => Except.noConfusion hc)
  | .ok a, .error b => .isFalse (fun hc => Except.noConfusion hc)
  | .ok a, .ok b =>
    if h : a = b then .isTrue (by rw [h])
    else .isFalse (fun hc => h (Except.ok.inj hc))

/-! ### Helper lemmas -/

theorem resolveSatpoint_some (sp : SatPoint) (ins : List (SatPoint × Nat))
    (utxos : List (OutPoint × Nat)) : resolveSatpoint (some sp) ins utxos = .ok sp := rfl

theorem resolveSatpoint_error_shape (spArg : Option SatPoint) (ins : List (SatPoint × Nat))
    (utxos : List (OutPoint × Nat)) (e : Err)
    (h : resolveSatpoint spArg ins utxos = .error e) : e = Err.noCardinalUtxos := by
  cases spArg with
  | some sp => simp [resolveSatpoint] at h
  | none =>
    simp only [resolveSatpoint] at h
    cases hf : (utxos.find? (fun u => !(decide (u.1 ∈ ins.map (fun p => p.1.outpoint))))) with
    | some u => rw [hf] at h; simp at h
    | none => rw [hf] at h; simp at h; exact h.symm

theorem resolveSatpoint_none_ok (ins : List (SatPoint × Nat)) (utxos : List (OutPoint × Nat))
    (sp : SatPoint) (h : resolveSatpoint none ins utxos = .ok sp) :
    sp.offset = 0 ∧ sp.outpoint ∉ ins.map (fun p => p.1.outpoint) := by
  simp only [resolveSatpoint] at h
  cases hf : (utxos.find? (fun u => !(decide (u.1 ∈ ins.map (fun p => p.1.outpoint))))) with
  | some u =>
    rw [hf] at h
    simp at h
    have hp := List.find?_some hf
    simp at hp
    rw [← h]
    refine ⟨rfl, ?_⟩
    simpa using hp
  | none => rw [hf] at h; simp at h

theorem collisionCheck_ok_iff (sp : SatPoint) (l : List (SatPoint × Nat)) :
    collisionCheck sp l = .ok () ↔ ∀ p ∈ l, p.1.outpoint ≠ sp.outpoint := by
  induction l with
  | nil => simp [collisionCheck]
  | cons p rest ih =>
    obtain ⟨isp, id⟩ := p
    by_cases h1 : isp = sp
    · subst h1; simp [collisionCheck]
    · by_cases h2 : isp.outpoint = sp.outpoint
      · simp [collisionCheck, h1, h2]
      · simp [collisionCheck, h1, h2, ih]

theorem collisionCheck_error_shape (sp : SatPoint) (l : List (SatPoint × Nat)) (e : Err)
    (h : collisionCheck sp l = .error e) :
    e = Err.satAlreadyInscribed sp ∨
      ∃ o id s, e = Err.outpointAlreadyInscribed o id s := by
  induction l with
  | nil => simp [collisionCheck] at h
  | cons p rest ih =>
    obtain ⟨isp, id⟩ := p
    by_cases h1 : isp = sp
    · subst h1; simp [collisionCheck] at h; exact Or.inl h.symm
    · by_cases h2 : isp.outpoint = sp.outpoint
      · simp [collisionCheck, h1, h2] at h
        exact Or.inr ⟨sp.outpoint, id, isp, h.symm⟩
      · simp only [collisionCheck, if_neg h1, if_neg h2] at h
        exact ih h

theorem findCommitOutputAux_none_iff (spk : List Nat) (i : Nat) (l : List TxOut) :
    findCommitOutputAux spk i l = none ↔ ∀ o ∈ l, o.script_pubkey ≠ spk := by
  induction l generalizing i with
  | nil => simp [findCommitOutputAux]
  | cons o rest ih =>
    by_cases h : o.script_pubkey = spk
    · simp [findCommitOutputAux, h]
    · simp [findCommitOutputAux, h, ih]

theorem findCommitOutputAux_some (spk : List Nat) (i : Nat) (l : List TxOut)
    (vout : Nat) (o : TxOut) (h : findCommitOutputAux spk i l = some (vout, o)) :
    ∃ pre post, l = pre ++ o :: post ∧ vout = i + pre.length ∧
      o.script_pubkey = spk ∧ ∀ o' ∈ pre, o'.script_pubkey ≠ spk := by
  induction l generalizing i with
  | nil => simp [findCommitOutputAux] at h
  | cons o₀ rest ih =>
    by_cases hm : o₀.script_pubkey = spk
    · simp [findCommitOutputAux, hm] at h
      obtain ⟨hv, ho⟩ := h
      exact ⟨[], rest, by simp [ho], by simp [hv], by rw [← ho]; exact hm, by simp⟩
    · simp only [findCommitOutputAux, if_neg hm] at h
      obtain ⟨pre, post, hl, hv, hspk, hpre⟩ := ih (i + 1) h
      refine ⟨o₀ :: pre, post, by simp [hl], by simp [hv]; omega, hspk, ?_⟩
      intro o' ho'
      rcases List.mem_cons.mp ho' with rfl | hmem
      · exact hm
      · exact hpre o' hmem

theorem findCommitOutput_error_shape (tx : Transaction) (spk : List Nat) (e : Err)
    (h : findCommitOutput tx spk = .error e) : e = Err.noCommitOutput := by
  unfold findCommitOutput at h
  cases hf : findCommitOutputAux spk 0 tx.output with
  | some p => obtain ⟨vout, o⟩ := p; rw [hf] at h; simp at h
  | none => rw [hf] at h; simp at h; exact h.symm

theorem applyRevealFee_eq (v f d : Nat) :
    applyRevealFee v f d =
      if f ≤ v then
        (if v - f < d then .error Err.revealWouldBeDust else .ok (v - f))
      else .error Err.insufficientCommitValue := by
  unfold applyRevealFee checkedSub
  by_cases hle : f ≤ v <;> simp [hle]

theorem applyRevealFee_ok_inversion (v f d n : Nat) (h : applyRevealFee v f d = .ok n) :
    n = v - f ∧ f ≤ v ∧ d ≤ n := by
  rw [applyRevealFee_eq] at h
  by_cases hle : f ≤ v
  · simp [hle] at h
    by_cases hd : v - f < d
    · simp [hd] at h
    · simp [hd] at h; omega
  · simp [hle] at h

theorem applyRevealFee_error_shape (v f d : Nat) (e : Err)
    (h : applyRevealFee v f d = .error e) :
    e = Err.insufficientCommitValue ∨ e = Err.revealWouldBeDust := by
  rw [applyRevealFee_eq] at h
  by_cases hle : f ≤ v
  · simp [hle] at h
    by_cases hd : v - f < d
    · simp [hd] at h; exact Or.inr h.symm
    · simp [hd] at h
  · simp [hle] at h; exact Or.inl h.symm

theorem recovery_address_matches (secp : Secp) (kp : Nat) (insc : List Nat) (net : Nat) :
    p2trTweaked (secp.xOnly (secp.tweakKeyPair kp (taproot_info secp kp insc).merkleRoot)) net
      = commit_tx_address_of secp kp insc net := by
  simp only [commit_tx_address_of, taproot_info, secp.tweak_compat, secp.finalize_output]

theorem vsize_witness_shape (txid vout v₁ v₂ : Nat) (spk s cb w₁ w₂ : List Nat)
    (h : w₁.length = w₂.length) :
    vsize (setWitness0 (reveal_template txid vout v₁ spk) [w₁, s, cb])
      = vsize (setWitness0 (reveal_template txid vout v₂ spk) [w₂, s, cb]) := by
  simp [vsize, weight, totalSize, baseSize, setWitness0, reveal_template, hasWitness,
    witnessSize, txinBaseSize, txoutSize, scriptLen, h]

theorem clearWitness0_setWitness0 (txid vout v : Nat) (spk : List Nat) (w : List (List Nat)) :
    clearWitness0 (setWitness0 (reveal_template txid vout v spk) w)
      = reveal_template txid vout v spk := by
  simp [clearWitness0, setWitness0, reveal_template]

theorem buildTransactions_ok_inversion (secp : Secp) (kp : Nat)
    (builder : SatPoint → List (SatPoint × Nat) → List (OutPoint × Nat) → Address →
      List Address → FeeRate → Except String Transaction)
    (sp : SatPoint) (insc : List Nat) (ins : List (SatPoint × Nat)) (net : Nat)
    (utxos : List (OutPoint × Nat)) (ch : List Address) (dest : Address) (fr : FeeRate)
    (c r : Transaction) (rk : Nat)
    (h : buildTransactions secp kp builder sp insc ins net utxos ch dest fr = .ok (c, r, rk)) :
    builder sp ins utxos (commit_tx_address_of secp kp insc net) ch fr = .ok c ∧
    ∃ vout output newValue,
      findCommitOutput c (commit_tx_address_of secp kp insc net).script_pubkey
        = .ok (vout, output) ∧
      applyRevealFee output.value
        (fr.fee (vsize (dummy_reveal secp kp insc (secp.txid c) vout output.value
          dest.script_pubkey)))
        (secp.dustValue dest.script_pubkey) = .ok newValue ∧
      r = setWitness0 (reveal_template (secp.txid c) vout newValue dest.script_pubkey)
          [secp.sign (secp.sighash
              (reveal_template (secp.txid c) vout newValue dest.script_pubkey) 0 [output]
              (secp.leafHash (reveal_script_of secp kp insc) TAPSCRIPT_LEAF_VERSION)
              SIGHASH_DEFAULT) kp,
            reveal_script_of secp kp insc,
            (taproot_info secp kp insc).controlBlockBytes] ∧
      rk = secp.tweakKeyPair kp (taproot_info secp kp insc).merkleRoot := by
  unfold buildTransactions at h
  cases hb : builder sp ins utxos (commit_tx_address_of secp kp insc net) ch fr with
  | error msg => rw [hb] at h; simp at h
  | ok u =>
    rw [hb] at h
    simp only [] at h
    cases hfo : findCommitOutput u (commit_tx_address_of secp kp insc net).script_pubkey with
    | error e => rw [hfo] at h; simp at h
    | ok p =>
      obtain ⟨vout, output⟩ := p
      rw [hfo] at h
      simp only [] at h
      cases hfee : applyRevealFee output.value
          (fr.fee (vsize (dummy_reveal secp kp insc (secp.txid u) vout output.value
            dest.script_pubkey)))
          (secp.dustValue dest.script_pubkey) with
      | error e => rw [hfee] at h; simp at h
      | ok newValue =>
        rw [hfee] at h
        simp only [recovery_address_matches secp kp insc net, if_true] at h
        simp only [Except.ok.injEq, Prod.mk.injEq] at h
        obtain ⟨hc, hr, hrk⟩ := h
        subst hc
        exact ⟨rfl, vout, output, newValue, hfo, hfee, hr.symm, hrk.symm⟩

theorem buildTransactions_error_shape (secp : Secp) (kp : Nat)
    (builder : SatPoint → List (SatPoint × Nat) → List (OutPoint × Nat) → Address →
      List Address → FeeRate → Except String Transaction)
    (sp : SatPoint) (insc : List Nat) (ins : List (SatPoint × Nat)) (net : Nat)
    (utxos : List (OutPoint × Nat)) (ch : List Address) (dest : Address) (fr : FeeRate)
    (e : Err)
    (h : buildTransactions secp kp builder sp insc ins net utxos ch dest fr = .error e) :
    (∃ msg, e = Err.user msg) ∨ e = Err.noCommitOutput ∨
      e = Err.insufficientCommitValue ∨ e = Err.revealWouldBeDust := by
  unfold buildTransactions at h
  cases hb : builder sp ins utxos (commit_tx_address_of secp kp insc net) ch fr with
  | error msg =>
    rw [hb] at h
    simp at h
    exact Or.inl ⟨msg, h.symm⟩
  | ok u =>
    rw [hb] at h
    simp only [] at h
    cases hfo : findCommitOutput u (commit_tx_address_of secp kp insc net).script_pubkey with
    | error e₂ =>
      rw [hfo] at h
      simp at h
      rw [← h]
      exact Or.inr (Or.inl (findCommitOutput_error_shape u _ e₂ hfo))
    | ok p =>
      obtain ⟨vout, output⟩ := p
      rw [hfo] at h
      simp only [] at h
      cases hfee : applyRevealFee output.value
          (fr.fee (vsize (dummy_reveal secp kp insc (secp.txid u) vout output.value
            dest.script_pubkey)))
          (secp.dustValue dest.script_pubkey) with
      | error e₃ =>
        rw [hfee] at h
        simp at h
        rw [← h]
        rcases applyRevealFee_error_shape _ _ _ e₃ hfee with h3 | h3
        · exact Or.inr (Or.inr (Or.inl h3))
        · exact Or.inr (Or.inr (Or.inr h3))
      | ok newValue =>
        rw [hfee] at h
        simp only [recovery_address_matches secp kp insc net, if_true] at h
        simp at h

theorem create_eq_buildTransactions (secp : Secp) (kp : Nat)
    (builder : SatPoint → List (SatPoint × Nat) → List (OutPoint × Nat) → Address →
      List Address → FeeRate → Except String Transaction)
    (spArg : Option SatPoint) (insc : List Nat) (ins : List (SatPoint × Nat)) (net : Nat)
    (utxos : List (OutPoint × Nat)) (ch : List Address) (dest : Address) (fr : FeeRate)
    (sp : SatPoint)
    (h1 : resolveSatpoint spArg ins utxos = .ok sp)
    (h2 : collisionCheck sp ins = .ok ()) :
    create_inscription_transactions secp kp builder spArg insc ins net utxos ch dest fr
      = buildTransactions secp kp builder sp insc ins net utxos ch dest fr := by
  unfold create_inscription_transactions
  rw [h1]
  simp only []
  rw [h2]

theorem create_ok_inversion (secp : Secp) (kp : Nat)
    (builder : SatPoint → List (SatPoint × Nat) → List (OutPoint × Nat) → Address →
      List Address → FeeRate → Except String Transaction)
    (spArg : Option SatPoint) (insc : List Nat) (ins : List (SatPoint × Nat)) (net : Nat)
    (utxos : List (OutPoint × Nat)) (ch : List Address) (dest : Address) (fr : FeeRate)
    (t : Transaction × Transaction × Nat)
    (h : create_inscription_transactions secp kp builder spArg insc ins net utxos ch dest fr
      = .ok t) :
    ∃ sp, resolveSatpoint spArg ins utxos = .ok sp ∧ collisionCheck sp ins = .ok () ∧
      buildTransactions secp kp builder sp insc ins net utxos ch dest fr = .ok t := by
  unfold create_inscription_transactions at h
  cases hr : resolveSatpoint spArg ins utxos with
  | error e => rw [hr] at h; simp at h
  | ok sp =>
    rw [hr] at h
    simp only [] at h
    cases hc : collisionCheck sp ins with
    | error e => rw [hc] at h; simp at h
    | ok u =>
      obtain ⟨⟩ := u
      rw [hc] at h
      exact ⟨sp, rfl, hc, h⟩

theorem create_error_shape (secp : Secp) (kp : Nat)
    (builder : SatPoint → List (SatPoint × Nat) → List (OutPoint × Nat) → Address →
      List Address → FeeRate → Except String Transaction)
    (spArg : Option SatPoint) (insc : List Nat) (ins : List (SatPoint × Nat)) (net : Nat)
    (utxos : List (OutPoint × Nat)) (ch : List Address) (dest : Address) (fr : FeeRate)
    (e : Err)
    (h : create_inscription_transactions secp kp builder spArg insc ins net utxos ch dest fr
      = .error e) :
    e ≠ Err.recoveryKeyMismatch ∧
      (spArg = none →
        (∀ s, e ≠ Err.satAlreadyInscribed s) ∧
        (∀ o id s, e ≠ Err.outpointAlreadyInscribed o id s)) := by
  unfold create_inscription_transactions at h
  cases hr : resolveSatpoint spArg ins utxos with
  | error e₀ =>
    rw [hr] at h
    simp at h
    have := resolveSatpoint_error_shape spArg ins utxos e₀ hr
    subst this
    rw [← h]
    exact ⟨by simp, fun _ => ⟨fun s => by simp, fun o id s => by simp⟩⟩
  | ok sp =>
    rw [hr] at h
    simp only [] at h
    cases hc : collisionCheck sp ins with
    | error e₁ =>
      rw [hc] at h
      simp at h
      subst h
      constructor
      · rcases collisionCheck_error_shape sp ins e₁ hc with h1 | ⟨o, id, s, h1⟩ <;>
          subst h1 <;> simp
      · intro hnone
        subst hnone
        exfalso
        have hout := (resolveSatpoint_none_ok ins utxos sp hr).2
        have : collisionCheck sp ins = .ok () := by
          rw [collisionCheck_ok_iff]
          intro p hp hcontra
          exact hout (by
            rw [← hcontra]
            exact List.mem_map_of_mem (fun q => q.1.outpoint) hp)
        rw [this] at hc
        exact Except.noConfusion hc
    | ok u =>
      obtain ⟨⟩ := u
      rw [hc] at h
      rcases buildTransactions_error_shape secp kp builder sp insc ins net utxos ch dest fr
          e h with ⟨msg, h1⟩ | h1 | h1 | h1 <;> subst h1 <;>
        exact ⟨by simp, fun _ => ⟨fun s => by simp, fun o id s => by simp⟩⟩

/-! ### Claim theorems -/

/-- C4: applying the reveal fee uses checked subtraction — commit output value
strictly below the fee fails with the "commit transaction output value
insufficient to pay transaction fee" error, a post-fee value strictly below
the dust threshold of the destination script fails with the "commit
transaction output would be dust" error, and a post-fee value exactly equal to
the dust threshold passes the check. -/
theorem apply_reveal_fee_checked (v f d : Nat) :
    (applyRevealFee v f d =
      if f ≤ v then
        (if v - f < d then .error Err.revealWouldBeDust else .ok (v - f))
      else .error Err.insufficientCommitValue)
    ∧ applyRevealFee (f + d) f d = .ok d
    ∧ Err.message Err.insufficientCommitValue
        = "commit transaction output value insufficient to pay transaction fee"
    ∧ Err.message Err.revealWouldBeDust = "commit transaction output would be dust" := by
  refine ⟨applyRevealFee_eq v f d, ?_, rfl, rfl⟩
  rw [applyRevealFee_eq]
  simp

/-- C2: the collision check visits every index entry in iteration order — an
entry equal to the resolved satpoint fails with the "sat … already inscribed"
error, an entry sharing only its outpoint fails with the "utxo … already
inscribed" error (the first entry with a matching outpoint decides, and
satpoint equality is tested first), the check passes exactly when no entry
shares the resolved satpoint's outpoint, and a collision error is the result
of `create_inscription_transactions`. -/
theorem collision_check_semantics (sp : SatPoint) (l : List (SatPoint × Nat)) :
    (collisionCheck sp l =
      match l.find? (fun p => decide (p.1.outpoint = sp.outpoint)) with
      | none => .ok ()
      | some (isp, id) =>
        .error (if isp = sp then Err.satAlreadyInscribed sp
          else Err.outpointAlreadyInscribed sp.outpoint id isp))
    ∧ (collisionCheck sp l = .ok () ↔ ∀ p ∈ l, p.1.outpoint ≠ sp.outpoint)
    ∧ (∀ secp kp builder insc net utxos ch dest fr e,
        collisionCheck sp l = .error e →
        create_inscription_transactions secp kp builder (some sp) insc l net utxos ch dest fr
          = .error e)
    ∧ Err.message (Err.satAlreadyInscribed sp)
        = "sat at " ++ satPointStr sp ++ " already inscribed"
    ∧ (∀ o id s, Err.message (Err.outpointAlreadyInscribed o id s)
        = "utxo " ++ outPointStr o ++ " already inscribed with inscription "
          ++ toString id ++ " on sat " ++ satPointStr s) := by
  refine ⟨?_, collisionCheck_ok_iff sp l, ?_, rfl, fun o id s => rfl⟩
  · induction l with
    | nil => simp [collisionCheck]
    | cons p rest ih =>
      obtain ⟨isp, id⟩ := p
      by_cases h1 : isp = sp
      · subst h1
        rw [List.find?_cons_of_pos _ (by simp)]
        simp [collisionCheck]
      · by_cases h2 : isp.outpoint = sp.outpoint
        · rw [List.find?_cons_of_pos _ (by simp [h2])]
          simp [collisionCheck, h1, h2]
        · rw [List.find?_cons_of_neg _ (by simp [h2])]
          simp only [collisionCheck, if_neg h1, if_neg h2]
          exact ih
  · intro secp kp builder insc net utxos ch dest fr e he
    unfold create_inscription_transactions
    rw [resolveSatpoint_some]
    simp only []
    rw [he]

/-- C2 witness: with an explicit satpoint equal to the single index entry, the
pipeline fails with the sat-already-inscribed error. -/
theorem collision_check_semantics_witness :
    create_inscription_transactions testSecp 1 testBuilder
        (some { outpoint := { txid := 1, vout := 0 }, offset := 0 }) [] testIns 0 testUtxos
        [testChange, testChange] testDest { num := 1, den := 1 }
      = .error (Err.satAlreadyInscribed
          { outpoint := { txid := 1, vout := 0 }, offset := 0 }) :=
  (collision_check_semantics { outpoint := { txid := 1, vout := 0 }, offset := 0 }
    testIns).2.2.1 testSecp 1 testBuilder [] 0 testUtxos [testChange, testChange] testDest
    { num := 1, den := 1 } _ (by decide)

theorem find?_first {α : Type} (p : α → Bool) (pre post : List α) (u : α)
    (hu : p u = true) (hpre : ∀ x ∈ pre, p x = false) :
    (pre ++ u :: post).find? p = some u := by
  induction pre with
  | nil => simp [List.find?_cons_of_pos _ hu]
  | cons a rest ih =>
    have ha : p a = false := hpre a (by simp)
    rw [List.cons_append, List.find?_cons_of_neg _ (by simp [ha])]
    exact ih (fun x hx => hpre x (by simp [hx]))

/-- C3: with no explicit satpoint, the first UTXO (in the ascending iteration
order of the UTXO map) whose outpoint is not the outpoint of any
inscription-index key is selected at offset 0; if every UTXO outpoint is
inscribed, `create_inscription_transactions` fails with the "wallet contains
no cardinal utxos" error. -/
theorem satpoint_auto_selection (ins : List (SatPoint × Nat)) (utxos : List (OutPoint × Nat))
    (_hsorted : strictlyAscending (utxos.map Prod.fst) = true) :
    ((∀ u ∈ utxos, u.1 ∈ ins.map (fun p => p.1.outpoint)) →
       resolveSatpoint none ins utxos = .error Err.noCardinalUtxos ∧
       (∀ secp kp builder insc net ch dest fr,
          create_inscription_transactions secp kp builder none insc ins net utxos ch dest fr
            = .error Err.noCardinalUtxos) ∧
       Err.message Err.noCardinalUtxos = "wallet contains no cardinal utxos")
    ∧ (∀ pre u post, utxos = pre ++ u :: post →
         u.1 ∉ ins.map (fun p => p.1.outpoint) →
         (∀ p ∈ pre, p.1 ∈ ins.map (fun p => p.1.outpoint)) →
         resolveSatpoint none ins utxos = .ok { outpoint := u.1, offset := 0 }) := by
  constructor
  · intro hall
    have hfind : utxos.find?
        (fun u => !(decide (u.1 ∈ ins.map (fun p => p.1.outpoint)))) = none := by
      rw [List.find?_eq_none]
      intro a ha
      simp [hall a ha]
    have hres : resolveSatpoint none ins utxos = .error Err.noCardinalUtxos := by
      simp only [resolveSatpoint]
      rw [hfind]
    refine ⟨hres, ?_, rfl⟩
    intro secp kp builder insc net ch dest fr
    unfold create_inscription_transactions
    rw [hres]
  · intro pre u post hsplit hu hpre
    have hfind : utxos.find?
        (fun u => !(decide (u.1 ∈ ins.map (fun p => p.1.outpoint)))) = some u := by
      rw [hsplit]
      exact find?_first _ pre post u (by simp [hu]) (fun x hx => by simp [hpre x hx])
    simp only [resolveSatpoint]
    rw [hfind]

/-- C3 witness: with the first UTXO inscribed, the second is auto-selected at
offset 0. -/
theorem satpoint_auto_selection_witness :
    resolveSatpoint none testIns testUtxos
      = .ok { outpoint := { txid := 2, vout := 0 }, offset := 0 } :=
  (satpoint_auto_selection testIns testUtxos (by decide)).2
    [({ txid := 1, vout := 0 }, 10000)] ({ txid := 2, vout := 0 }, 10000) []
    (by decide) (by decide) (by decide)

/-- C6 counterexample: on a funded commit transaction with two outputs paying
the commit address's script_pubkey, the core does not panic — `find` silently
returns the first match — contradicting the claim that any violation of the
exactly-one-output guarantee (including more than one matching output) causes
an implementation panic. -/
theorem find_commit_output_two_matches :
    (twoMatchTx.output.countP (fun o => decide (o.script_pubkey = [1, 2]))) = 2 ∧
    findCommitOutput twoMatchTx [1, 2]
      = .ok (0, { value := 1000, script_pubkey := [1, 2] }) := by
  constructor
  · rfl
  · rfl

/-- C6 amended: the core asserts only that at least one output of the funded
commit transaction pays `commit_address.script_pubkey` — the `expect` panic
(`Err.noCommitOutput`, an implementation panic rather than a user-facing
error) fires exactly when no output matches, and when one or more outputs
match the first of them (with its index) is used. -/
theorem find_commit_output_semantics (tx : Transaction) (spk : List Nat) :
    (findCommitOutput tx spk = .error Err.noCommitOutput ↔
      ∀ o ∈ tx.output, o.script_pubkey ≠ spk)
    ∧ (∀ vout o, findCommitOutput tx spk = .ok (vout, o) →
        ∃ pre post, tx.output = pre ++ o :: post ∧ vout = pre.length ∧
          o.script_pubkey = spk ∧ ∀ o' ∈ pre, o'.script_pubkey ≠ spk)
    ∧ Err.noCommitOutput.isImplementationBug = true
    ∧ Err.message Err.noCommitOutput = "should find sat commit/inscription output" := by
  refine ⟨?_, ?_, rfl, rfl⟩
  · constructor
    · intro h
      unfold findCommitOutput at h
      cases hf : findCommitOutputAux spk 0 tx.output with
      | some p => obtain ⟨vout, o⟩ := p; rw [hf] at h; simp at h
      | none => exact (findCommitOutputAux_none_iff spk 0 tx.output).mp hf
    · intro h
      unfold findCommitOutput
      rw [(findCommitOutputAux_none_iff spk 0 tx.output).mpr h]
  · intro vout o h
    unfold findCommitOutput at h
    cases hf : findCommitOutputAux spk 0 tx.output with
    | some p =>
      obtain ⟨vout', o'⟩ := p
      rw [hf] at h
      simp at h
      obtain ⟨rfl, rfl⟩ := h
      obtain ⟨pre, post, hl, hv, hspk, hpre⟩ := findCommitOutputAux_some spk 0 tx.output
        _ _ hf
      exact ⟨pre, post, hl, by omega, hspk, hpre⟩
    | none => rw [hf] at h; simp at h

/-- C6 amended witness: a commit transaction none of whose outputs pays the
commit script_pubkey makes the core panic with the `expect` message. -/
theorem find_commit_output_semantics_witness :
    findCommitOutput twoMatchTx [7] = .error Err.noCommitOutput :=
  (find_commit_output_semantics twoMatchTx [7]).1.mpr (by decide)

/-- C5: the x-only public key of the recovery key pair (the ephemeral key pair
tap-tweaked under the single-leaf Merkle root) equals the Taproot output key
embedded in the commit address, so the `assert_eq!` comparing the P2TR address
of the tweaked key with `commit_tx_address` at the end of
`create_inscription_transactions` never fails. -/
theorem recovery_key_assert_never_fails :
    (∀ (secp : Secp) (kp : Nat) (insc : List Nat),
       secp.xOnly (secp.tweakKeyPair kp (taproot_info secp kp insc).merkleRoot)
         = (taproot_info secp kp insc).outputKey)
    ∧ (∀ secp kp builder spArg insc ins net utxos ch dest fr,
        isErrRecoveryMismatch
          (create_inscription_transactions secp kp builder spArg insc ins net utxos
            ch dest fr) = false) := by
  constructor
  · intro secp kp insc
    have h := recovery_address_matches secp kp insc 0
    simpa [p2trTweaked, commit_tx_address_of] using h
  · intro secp kp builder spArg insc ins net utxos ch dest fr
    cases hres : create_inscription_transactions secp kp builder spArg insc ins net utxos
        ch dest fr with
    | ok t => rfl
    | error e =>
      have hne := (create_error_shape secp kp builder spArg insc ins net utxos ch dest fr
        e hres).1
      cases e <;> first | rfl | exact absurd rfl hne

/-- C10: when the satpoint is auto-selected, the collision check can never
fire — `create_inscription_transactions` with a `None` satpoint argument never
returns the "sat … already inscribed" or "utxo … already inscribed" errors,
because the selected outpoint is by construction not the outpoint of any
inscription-index key. -/
theorem auto_selection_avoids_collision_errors :
    ∀ secp kp builder insc ins net utxos ch dest fr,
      isCollisionErr
        (create_inscription_transactions secp kp builder none insc ins net utxos ch dest fr)
        = false := by
  intro secp kp builder insc ins net utxos ch dest fr
  cases hres : create_inscription_transactions secp kp builder none insc ins net utxos
      ch dest fr with
  | ok t => rfl
  | error e =>
    have h2 := (create_error_shape secp kp builder none insc ins net utxos ch dest fr
      e hres).2 rfl
    cases e <;>
      first
        | rfl
        | exact absurd rfl (h2.1 _)
        | exact absurd rfl (h2.2 _ _ _)

/-- C1: for every successful call, the reveal transaction's single output
value equals the value of the commit transaction's output paying the commit
address minus `fee_rate.fee` of the reveal transaction's virtual size with its
real (post-signing) witness — the fee computed on the dummy-witnessed clone is
the same because the 64-byte zero signature, reveal script and control block
have exactly the sizes of the real witness elements. -/
theorem reveal_output_value_pays_fee (secp : Secp) (kp : Nat)
    (builder : SatPoint → List (SatPoint × Nat) → List (OutPoint × Nat) → Address →
      List Address → FeeRate → Except String Transaction)
    (spArg : Option SatPoint) (insc : List Nat) (ins : List (SatPoint × Nat)) (net : Nat)
    (utxos : List (OutPoint × Nat)) (ch : List Address) (dest : Address) (fr : FeeRate)
    (c r : Transaction) (rk : Nat)
    (h : create_inscription_transactions secp kp builder spArg insc ins net utxos ch dest fr
      = .ok (c, r, rk)) :
    ∃ vout output,
      findCommitOutput c (commit_tx_address_of secp kp insc net).script_pubkey
        = .ok (vout, output) ∧
      fr.fee (vsize r) ≤ output.value ∧
      r.output = [TxOut.mk (output.value - fr.fee (vsize r)) dest.script_pubkey] := by
  obtain ⟨sp, hres, hcol, hb⟩ := create_ok_inversion secp kp builder spArg insc ins net
    utxos ch dest fr (c, r, rk) h
  obtain ⟨hbuild, vout, output, newValue, hfo, hfee, hrev, hrk⟩ :=
    buildTransactions_ok_inversion secp kp builder sp insc ins net utxos ch dest fr
      c r rk hb
  have hvs : vsize r = vsize (dummy_reveal secp kp insc (secp.txid c) vout output.value
      dest.script_pubkey) := by
    rw [hrev]
    unfold dummy_reveal
    exact vsize_witness_shape _ _ _ _ _ _ _ _ _ (by rw [secp.sign_len]; simp)
  obtain ⟨hn, hle, hdust⟩ := applyRevealFee_ok_inversion _ _ _ _ hfee
  have hout : r.output = [{ value := newValue, script_pubkey := dest.script_pubkey }] := by
    rw [hrev]; rfl
  refine ⟨vout, output, hfo, ?_, ?_⟩
  · rw [hvs]; exact hle
  · rw [hout, hn, hvs]

/-- C1 witness: the closed successful run satisfies the fee equation on the
real reveal transaction. -/
theorem reveal_output_value_pays_fee_witness :
    ∃ vout output,
      findCommitOutput testCommit (commit_tx_address_of testSecp 1 [] 0).script_pubkey
        = .ok (vout, output) ∧
      FeeRate.fee { num := 1, den := 1 } (vsize testReveal) ≤ output.value ∧
      testReveal.output = [TxOut.mk
          (output.value - FeeRate.fee { num := 1, den := 1 } (vsize testReveal))
          testDest.script_pubkey] :=
  reveal_output_value_pays_fee testSecp 1 testBuilder none [] testIns 0 testUtxos
    [testChange, testChange] testDest { num := 1, den := 1 } testCommit testReveal
    testRecovery (by rfl)

/-- C8: input 0 of the returned reveal transaction carries a witness stack of
exactly three elements in order — the 64-byte Schnorr signature produced with
the untweaked ephemeral key pair over the BIP-341 script-path sighash for
input 0 (sighash type `Default`, `Prevouts::All` with the single commit
prevout, tap-leaf hash of the reveal script at leaf version 0xC0), then the
reveal script, then the serialized control block. -/
theorem reveal_witness_stack (secp : Secp) (kp : Nat)
    (builder : SatPoint → List (SatPoint × Nat) → List (OutPoint × Nat) → Address →
      List Address → FeeRate → Except String Transaction)
    (spArg : Option SatPoint) (insc : List Nat) (ins : List (SatPoint × Nat)) (net : Nat)
    (utxos : List (OutPoint × Nat)) (ch : List Address) (dest : Address) (fr : FeeRate)
    (c r : Transaction) (rk : Nat)
    (h : create_inscription_transactions secp kp builder spArg insc ins net utxos ch dest fr
      = .ok (c, r, rk)) :
    ∃ vout output,
      findCommitOutput c (commit_tx_address_of secp kp insc net).script_pubkey
        = .ok (vout, output) ∧
      r.input.map TxIn.witness =
        [[secp.sign (secp.sighash (clearWitness0 r) 0 [output]
            (secp.leafHash (reveal_script_of secp kp insc) TAPSCRIPT_LEAF_VERSION)
            SIGHASH_DEFAULT) kp,
          reveal_script_of secp kp insc,
          (taproot_info secp kp insc).controlBlockBytes]] ∧
      (secp.sign (secp.sighash (clearWitness0 r) 0 [output]
          (secp.leafHash (reveal_script_of secp kp insc) TAPSCRIPT_LEAF_VERSION)
          SIGHASH_DEFAULT) kp).length = 64 := by
  obtain ⟨sp, hres, hcol, hb⟩ := create_ok_inversion secp kp builder spArg insc ins net
    utxos ch dest fr (c, r, rk) h
  obtain ⟨hbuild, vout, output, newValue, hfo, hfee, hrev, hrk⟩ :=
    buildTransactions_ok_inversion secp kp builder sp insc ins net utxos ch dest fr
      c r rk hb
  have hclear : clearWitness0 r
      = reveal_template (secp.txid c) vout newValue dest.script_pubkey := by
    rw [hrev]
    exact clearWitness0_setWitness0 _ _ _ _ _
  refine ⟨vout, output, hfo, ?_, secp.sign_len _ _⟩
  rw [hclear, hrev]
  rfl

/-- C8 witness: the closed successful run carries exactly that witness
stack. -/
theorem reveal_witness_stack_witness :
    ∃ vout output,
      findCommitOutput testCommit (commit_tx_address_of testSecp 1 [] 0).script_pubkey
        = .ok (vout, output) ∧
      testReveal.input.map TxIn.witness =
        [[testSecp.sign (testSecp.sighash (clearWitness0 testReveal) 0 [output]
            (testSecp.leafHash (reveal_script_of testSecp 1 []) TAPSCRIPT_LEAF_VERSION)
            SIGHASH_DEFAULT) 1,
          reveal_script_of testSecp 1 [],
          (taproot_info testSecp 1 []).controlBlockBytes]] ∧
      (testSecp.sign (testSecp.sighash (clearWitness0 testReveal) 0 [output]
          (testSecp.leafHash (reveal_script_of testSecp 1 []) TAPSCRIPT_LEAF_VERSION)
          SIGHASH_DEFAULT) 1).length = 64 :=
  reveal_witness_stack testSecp 1 testBuilder none [] testIns 0 testUtxos
    [testChange, testChange] testDest { num := 1, den := 1 } testCommit testReveal
    testRecovery (by rfl)

/-- C9: every successful run produces commit and reveal transactions that each
have an input with sequence strictly below 0xFFFFFFFE; the reveal
transaction's single input has sequence `ENABLE_RBF_NO_LOCKTIME`
(0xFFFFFFFD).  The commit half relies on the spec-modelled guarantee that the
external `TransactionBuilder` emits RBF transactions. -/
theorem transactions_opt_into_rbf (secp : Secp) (kp : Nat)
    (builder : SatPoint → List (SatPoint × Nat) → List (OutPoint × Nat) → Address →
      List Address → FeeRate → Except String Transaction)
    (spArg : Option SatPoint) (insc : List Nat) (ins : List (SatPoint × Nat)) (net : Nat)
    (utxos : List (OutPoint × Nat)) (ch : List Address) (dest : Address) (fr : FeeRate)
    (c r : Transaction) (rk : Nat)
    (hbuilder : BuilderEmitsRbf builder)
    (h : create_inscription_transactions secp kp builder spArg insc ins net utxos ch dest fr
      = .ok (c, r, rk)) :
    c.input.any (fun i => decide (i.sequence < 0xFFFFFFFE)) = true ∧
    r.input.map TxIn.sequence = [ENABLE_RBF_NO_LOCKTIME] ∧
    ENABLE_RBF_NO_LOCKTIME < 0xFFFFFFFE := by
  obtain ⟨sp, hres, hcol, hb⟩ := create_ok_inversion secp kp builder spArg insc ins net
    utxos ch dest fr (c, r, rk) h
  obtain ⟨hbuild, vout, output, newValue, hfo, hfee, hrev, hrk⟩ :=
    buildTransactions_ok_inversion secp kp builder sp insc ins net utxos ch dest fr
      c r rk hb
  refine ⟨hbuilder _ _ _ _ _ _ _ hbuild, ?_, by decide⟩
  rw [hrev]
  rfl

/-- C9 witness: the closed successful run has RBF sequences on both
transactions. -/
theorem transactions_opt_into_rbf_witness :
    testCommit.input.any (fun i => decide (i.sequence < 0xFFFFFFFE)) = true ∧
    testReveal.input.map TxIn.sequence = [ENABLE_RBF_NO_LOCKTIME] ∧
    ENABLE_RBF_NO_LOCKTIME < 0xFFFFFFFE :=
  transactions_opt_into_rbf testSecp 1 testBuilder none [] testIns 0 testUtxos
    [testChange, testChange] testDest { num := 1, den := 1 } testCommit testReveal
    testRecovery
    (fun sp ins ux addr ch fr tx hb => by
      simp only [testBuilder, Except.ok.injEq] at hb
      rw [← hb]
      rfl)
    (by rfl)

theorem importResultsCheck_mem_false (results : List Bool) (h : false ∈ results) :
    importResultsCheck results = .error Err.recoveryKeyImportFailed := by
  induction results with
  | nil => simp at h
  | cons r rest ih =>
    cases r with
    | false => simp [importResultsCheck]
    | true =>
      simp at h
      simp [importResultsCheck, ih h]

/-- C7: with `no_backup` false, the recovery-key export (`get_descriptor_info`
and `import_descriptors`) completes before the commit transaction is signed or
either transaction is broadcast, and if any result in the
`import_descriptors` response has `success` false, the run fails with the
"commit tx recovery key import failed" error before any broadcast call is
made. -/
theorem recovery_export_before_broadcast (client : RpcClient) :
    recoveryExportFirst (runBroadcastPhase false client).1
    ∧ (client.infoOk = true → client.importCallOk = true →
        false ∈ client.importResults →
        runBroadcastPhase false client
          = ([RpcEvent.getDescriptorInfo, RpcEvent.importDescriptors],
             .error Err.recoveryKeyImportFailed) ∧
        RpcEvent.broadcastCommitTx ∉ (runBroadcastPhase false client).1 ∧
        RpcEvent.broadcastRevealTx ∉ (runBroadcastPhase false client).1)
    ∧ Err.message Err.recoveryKeyImportFailed = "commit tx recovery key import failed" := by
  refine ⟨?_, ?_, rfl⟩
  · cases hic : importResultsCheck client.importResults with
    | error e =>
      cases hio : client.infoOk <;> cases hico : client.importCallOk <;>
        cases hso : client.signOk <;> cases hsco : client.sendCommitOk <;>
        cases hsro : client.sendRevealOk <;>
        simp only [runBroadcastPhase, backup_recovery_key, hio, hico, hso, hsco, hsro,
          hic, Bool.not_true, Bool.not_false, if_true, if_false, Bool.false_eq_true,
          List.append_assoc, List.cons_append, List.nil_append, List.singleton_append] <;>
        decide
    | ok u =>
      obtain ⟨⟩ := u
      cases hio : client.infoOk <;> cases hico : client.importCallOk <;>
        cases hso : client.signOk <;> cases hsco : client.sendCommitOk <;>
        cases hsro : client.sendRevealOk <;>
        simp only [runBroadcastPhase, backup_recovery_key, hio, hico, hso, hsco, hsro,
          hic, Bool.not_true, Bool.not_false, if_true, if_false, Bool.false_eq_true,
          List.append_assoc, List.cons_append, List.nil_append, List.singleton_append] <;>
        decide
  · intro h1 h2 h3
    have hic := importResultsCheck_mem_false client.importResults h3
    have hrun : runBroadcastPhase false client
        = ([RpcEvent.getDescriptorInfo, RpcEvent.importDescriptors],
           .error Err.recoveryKeyImportFailed) := by
      simp only [runBroadcastPhase, backup_recovery_key, h1, h2, hic, Bool.not_true,
        Bool.false_eq_true, if_false]
    refine ⟨hrun, ?_, ?_⟩ <;> rw [hrun] <;> decide

/-- C7 witness: a concrete client whose import response contains a failed
result makes the run stop with the import-failed error after only the two
descriptor calls. -/
theorem recovery_export_before_broadcast_witness :
    runBroadcastPhase false testClient
      = ([RpcEvent.getDescriptorInfo, RpcEvent.importDescriptors],
         .error Err.recoveryKeyImportFailed) :=
  ((recovery_export_before_broadcast testClient).2.1 rfl rfl (by decide)).1
